import Mathlib

/-
Verification of the codex-worker task-state coordination engine.

The development shallowly embeds the two core source files:
  * state.py  — the filesystem-marker task state machine (TaskState),
  * worker.py — the worker that drives tasks through that state machine.

A task's marker files are modelled as a record of optional contents; every
fallible filesystem call gets an error-injection flag so that the exception
behaviour of the Python code can be stated.  Wall-clock times are rationals.
-/

namespace CodexWorker

/-- Attempt metadata stored in the in-progress marker
(state.py, dataclass TaskMetadata, lines 26-35). -/
structure TaskMetadata where
  file : String
  engine : String
  model : String
  started_at : String
  pid : Option Int := none
  worker_id : Option String := none
  attempt : Int := 1
deriving DecidableEq, Repr

/-- Content of the in-progress marker file: either bytes on which json.load
raises (invalid), or the metadata dict written by mark_in_progress.  The
seven-key dict of string/int/null values round-trips through json, so a
parseable marker is modelled directly by the metadata it denotes. -/
inductive MarkerContent where
  | invalid (raw : String)
  | valid (meta : TaskMetadata)
deriving DecidableEq, Repr

/-- The in-progress marker file: its content plus its st_mtime, which
cleanup_stale reads to compute the marker's age. -/
structure InProgMarker where
  content : MarkerContent
  mtime : ℚ
deriving DecidableEq, Repr

/-- The marker files of one task (state.py TaskState, lines 49-62): each
marker path is either absent (none) or present with its content.  The lock
marker is created empty, so a Bool suffices for it. -/
structure FS where
  in_progress : Option InProgMarker
  completed : Option String
  legacy_completed : Option String
  failed : Option String
  temp_log : Option String
  lock : Bool
deriving DecidableEq, Repr

/-- is_completed (state.py 75-77): the completed or legacy-completed marker
exists. -/
def is_completed (fs : FS) : Bool :=
  fs.completed.isSome || fs.legacy_completed.isSome

/-- is_failed (state.py 79-81). -/
def is_failed (fs : FS) : Bool :=
  fs.failed.isSome

/-- is_in_progress (state.py 83-85). -/
def is_in_progress (fs : FS) : Bool :=
  fs.in_progress.isSome

/-- get_state (state.py 64-73). -/
def get_state (fs : FS) : String :=
  if is_completed fs then "completed"
  else if is_failed fs then "failed"
  else if is_in_progress fs then "in_progress"
  else "pending"

/-- Error injection: one flag per fallible filesystem call inside the
transition methods of state.py; a true flag means that call raises OSError
at the point where the source performs it. -/
structure FSErrors where
  write_marker : Bool
  rename_to_completed : Bool
  rename_to_failed : Bool
  unlink_in_progress : Bool
  unlink_failed : Bool
  stat_in_progress : Bool
  read_in_progress : Bool
  unlink_lock : Bool
deriving DecidableEq, Repr

/-- The error-free run: every filesystem call succeeds. -/
def noErrors : FSErrors :=
  { write_marker := false, rename_to_completed := false, rename_to_failed := false,
    unlink_in_progress := false, unlink_failed := false, stat_in_progress := false,
    read_in_progress := false, unlink_lock := false }

/-- acquire_lock (state.py 87-107) in a single-caller setting: the polling
loop either wins the atomic O_CREAT|O_EXCL create on its first iteration
(lock marker absent) or, with no other process ever releasing the lock,
polls until the timeout elapses and returns false. -/
def acquire_lock (fs : FS) : FS × Bool :=
  if fs.lock then (fs, false) else ({ fs with lock := true }, true)

/-- release_lock (state.py 109-114): unlinks the lock marker, swallowing any
error (so a failing unlink leaves the lock marker in place). -/
def release_lock (fs : FS) (e : FSErrors) : FS :=
  if e.unlink_lock then fs else { fs with lock := false }

/-- mark_in_progress (state.py 116-157), sequential single-caller model.
Returns the new marker state and the call's outcome: ok b for a normal
return of b, and error () when the metadata write or rename raises — the
try block has no except clause, only a finally that releases the lock, so
that exception propagates to the caller after the lock is released. -/
def mark_in_progress (fs : FS) (m : TaskMetadata) (now : ℚ) (e : FSErrors) :
    FS × Except Unit Bool :=
  if is_completed fs || is_in_progress fs then (fs, Except.ok false)
  else
    match acquire_lock fs with
    | (fs1, false) => (fs1, Except.ok false)
    | (fs1, true) =>
      if is_completed fs1 || is_in_progress fs1 then
        (release_lock fs1 e, Except.ok false)
      else if e.write_marker then
        (release_lock fs1 e, Except.error ())
      else
        ({ release_lock fs1 e with in_progress := some ⟨MarkerContent.valid m, now⟩ },
         Except.ok true)

/-- The tail of mark_completed's try block after the completed marker is in
place (state.py 172-175): in_progress.unlink then failed.unlink, any raise
caught by the except clause which returns false. -/
def mark_completed_cleanup (fs : FS) (e : FSErrors) : FS × Bool :=
  if e.unlink_in_progress then (fs, false)
  else if e.unlink_failed then ({ fs with in_progress := none }, false)
  else ({ fs with in_progress := none, failed := none }, true)

/-- mark_completed (state.py 159-178): requires the in-progress marker,
renames the temp log onto the completed path or, when no temp log exists,
touches the completed path — Path.touch creates the file empty only when it
is absent and preserves the content of a pre-existing file — then removes
in_progress and any stale failed marker.  The except clause turns any raise
into a false return, keeping whatever mutations had already happened. -/
def mark_completed (fs : FS) (e : FSErrors) : FS × Bool :=
  if !(is_in_progress fs) then (fs, false)
  else
    match fs.temp_log with
    | some log =>
      if e.rename_to_completed then (fs, false)
      else mark_completed_cleanup { fs with temp_log := none, completed := some log } e
    | none =>
      if e.rename_to_completed then (fs, false)
      else mark_completed_cleanup { fs with completed := some (fs.completed.getD "") } e

/-- mark_failed (state.py 180-198): symmetric to mark_completed but renames
onto the failed path and only unlinks in_progress; the touch in the
no-temp-log branch likewise preserves the content of a pre-existing failed
marker and creates an empty file only when the marker is absent. -/
def mark_failed (fs : FS) (e : FSErrors) : FS × Bool :=
  if !(is_in_progress fs) then (fs, false)
  else
    match fs.temp_log with
    | some log =>
      if e.rename_to_failed then (fs, false)
      else if e.unlink_in_progress then ({ fs with temp_log := none, failed := some log }, false)
      else ({ fs with temp_log := none, failed := some log, in_progress := none }, true)
    | none =>
      if e.rename_to_failed then (fs, false)
      else if e.unlink_in_progress then ({ fs with failed := some (fs.failed.getD "") }, false)
      else ({ fs with failed := some (fs.failed.getD ""), in_progress := none }, true)

/-- _is_process_alive (state.py 305-313): non-positive pids are dead; for
positive pids the outcome of os.kill(pid, 0) is abstracted by the oracle
osAlive. -/
def is_process_alive (pid : Int) (osAlive : Int → Bool) : Bool :=
  if pid ≤ 0 then false else osAlive pid

/-- Python truthiness of the Optional[int] pid read from the marker: None
and 0 are falsy (state.py 219 tests `pid and _is_process_alive(pid)`). -/
def pidTruthy : Option Int → Bool
  | none => false
  | some k => k != 0

/-- cleanup_stale (state.py 200-227): now is time.time(); osAlive abstracts
os.kill.  Any raise inside the try block — stat, open/json.load on an
unparseable marker, or the final unlink — is caught and yields false. -/
def cleanup_stale (fs : FS) (max_age_seconds : ℚ) (now : ℚ)
    (osAlive : Int → Bool) (e : FSErrors) : FS × Bool :=
  match fs.in_progress with
  | none => (fs, false)
  | some marker =>
    if e.stat_in_progress then (fs, false)
    else if now - marker.mtime < max_age_seconds then (fs, false)
    else if e.read_in_progress then (fs, false)
    else
      match marker.content with
      | MarkerContent.invalid _ => (fs, false)
      | MarkerContent.valid meta =>
        if pidTruthy meta.pid && is_process_alive (meta.pid.getD 0) osAlive then (fs, false)
        else if e.unlink_in_progress then (fs, false)
        else ({ fs with in_progress := none }, true)

/-- get_metadata (state.py 229-248): parses the in-progress marker
defensively, returning none when the marker is absent, unreadable or
unparseable; on a marker written by mark_in_progress every key is present,
so the .get defaults are never used and the stored values come back. -/
def get_metadata (fs : FS) (e : FSErrors) : Option TaskMetadata :=
  match fs.in_progress with
  | none => none
  | some marker =>
    if e.read_in_progress then none
    else
      match marker.content with
      | MarkerContent.invalid _ => none
      | MarkerContent.valid d =>
        some ⟨d.file, d.engine, d.model, d.started_at, d.pid, d.worker_id, d.attempt⟩

/-- Execution safety levels (worker.py, enum ExecutionMode, lines 19-24). -/
inductive ExecutionMode where
  | dry_run
  | read_only
  | workspace_write
  | full_access
deriving DecidableEq, Repr

/-- Worker configuration (worker.py, dataclass WorkerConfig, lines 27-40).
retries is a Nat because the CLI enforces retries >= 0. -/
structure WorkerConfig where
  model : String := "o4-mini"
  mode : ExecutionMode := ExecutionMode.read_only
  approval : String := "never"
  timeout : Option ℚ := none
  retries : Nat := 0
  retry_delay : ℚ := 5
  concurrency : Nat := 1
  sleep_between : ℚ := 1
  skip_git_check : Bool := true
  codex_cmd : String := "codex"
  verbose : Bool := false
deriving DecidableEq, Repr

/-- Result from task execution (worker.py, dataclass ExecutionResult, lines
43-52).  Wall-clock durations are modelled as 0. -/
structure ExecutionResult where
  file : String
  success : Bool
  return_code : Int
  duration : ℚ := 0
  output_log : Option String := none
  error_msg : Option String := none
  attempts : Int := 1
deriving DecidableEq, Repr

/-- The per-session counters (worker.py line 72, self.stats). -/
structure Stats where
  started : Nat := 0
  completed : Nat := 0
  failed : Nat := 0
  skipped : Nat := 0
deriving DecidableEq, Repr

/-- The in-memory worker identity (worker.py CodexWorker.__init__): a random
short id, the process id, the cooperative shutdown flag and the counters. -/
structure Worker where
  worker_id : String
  pid : Int
  shutdown : Bool := false
  stats : Stats := {}
deriving DecidableEq, Repr

def bump_skipped (w : Worker) : Worker :=
  { w with stats := { w.stats with skipped := w.stats.skipped + 1 } }

def bump_started (w : Worker) : Worker :=
  { w with stats := { w.stats with started := w.stats.started + 1 } }

def bump_completed (w : Worker) : Worker :=
  { w with stats := { w.stats with completed := w.stats.completed + 1 } }

def bump_failed (w : Worker) : Worker :=
  { w with stats := { w.stats with failed := w.stats.failed + 1 } }

/-- Outcome of one subprocess run (worker.py _execute_single, non-dry path):
the exit code from proc.wait and the bytes captured into the temp log.  The
log file is created by open('wb') before the spawn, so it exists afterwards
even when the process wrote nothing. -/
structure AttemptOutcome where
  rc : Int
  log : String
deriving DecidableEq, Repr

/-- _execute_single (worker.py 233-310) for one attempt.  In dry-run mode no
subprocess is launched and no temp log is written; success is reported
immediately.  Otherwise the temp log receives the captured output and
success means exit code 0.  Launch and timeout errors are not injected here:
the claims about this layer only exercise exit codes. -/
def execute_single (cfg : WorkerConfig) (file : String) (fs : FS)
    (outcome : AttemptOutcome) : FS × ExecutionResult :=
  if cfg.mode = ExecutionMode.dry_run then
    (fs, { file := file, success := true, return_code := 0 })
  else
    ({ fs with temp_log := some outcome.log },
     { file := file, success := outcome.rc == 0, return_code := outcome.rc,
       output_log := some outcome.log })

/-- The retry loop of process_file (worker.py 191-220).  remaining counts
the attempts still allowed (initially retries + 1) and attempt is the
1-based index handed to the runner, so remaining + attempt = retries + 2
throughout.  The post-loop code (lines 212-220), reached only through the
shutdown break, removes the worker's own in-progress marker and reports
return code 130; the in-memory mutation of metadata.attempt on a retry
(line 198) touches no marker and no result, so it has no observable
effect.  The result of a finishing attempt is returned as built by
execute_single — in particular its attempts field keeps the default 1. -/
def retry_loop (cfg : WorkerConfig) (file : String)
    (runner : Nat → AttemptOutcome) (w : Worker) :
    Nat → Nat → FS → FS × Worker × ExecutionResult
  | 0, _, fs =>
    ({ fs with in_progress := none }, w,
     { file := file, success := false, return_code := 130,
       error_msg := some "Shutdown requested" })
  | remaining + 1, attempt, fs =>
    if w.shutdown then
      ({ fs with in_progress := none }, w,
       { file := file, success := false, return_code := 130,
         error_msg := some "Shutdown requested" })
    else
      match execute_single cfg file fs (runner attempt) with
      | (fs1, result) =>
        if result.success then
          ((mark_completed fs1 noErrors).1, bump_completed w, result)
        else if remaining = 0 then
          ((mark_failed fs1 noErrors).1, bump_failed w, result)
        else
          retry_loop cfg file runner w remaining (attempt + 1) fs1

/-- process_file (worker.py 129-231): skip when already completed; skip when
in progress under a different (or missing) recorded worker id; otherwise
build the attempt metadata, claim via mark_in_progress and run the retry
loop.  now is the claim-time clock, started_at the formatted timestamp.
Filesystem errors are not injected at this layer, so the claim's exception
arm of mark_in_progress is unreachable here and folds into the
could-not-acquire skip. -/
def process_file (w : Worker) (cfg : WorkerConfig) (file : String) (fs : FS)
    (runner : Nat → AttemptOutcome) (now : ℚ) (started_at : String) :
    FS × Worker × ExecutionResult :=
  if is_completed fs then
    (fs, bump_skipped w,
     { file := file, success := true, return_code := 0,
       error_msg := some "Already completed" })
  else if is_in_progress fs &&
      (match get_metadata fs noErrors with
       | some meta => meta.worker_id != some w.worker_id
       | none => false) then
    (fs, bump_skipped w,
     { file := file, success := false, return_code := 1,
       error_msg := some "In progress by another worker" })
  else
    match mark_in_progress fs
        { file := file, engine := "codex", model := cfg.model,
          started_at := started_at, pid := some w.pid,
          worker_id := some w.worker_id, attempt := 1 } now noErrors with
    | (fs1, Except.ok true) =>
      retry_loop cfg file runner (bump_started w) (cfg.retries + 1) 1 fs1
    | (fs1, _) =>
      (fs1, bump_skipped w,
       { file := file, success := false, return_code := 1,
         error_msg := some "Could not acquire task" })

/-
Concurrency model for racing mark_in_progress callers.

Any number of callers (indexed by Nat) race to claim the same task.  Each
caller executes the atomic filesystem steps of mark_in_progress in order;
the scheduler interleaves them arbitrarily.  Racing claimers never write
the completed marker and only ever create — never remove — the in-progress
marker, so the shared state is three booleans.
-/

/-- Program counter of one caller inside mark_in_progress (state.py
116-157), one constructor per atomic filesystem step. -/
inductive PC where
  | start
  | acquiring
  | locked2
  | locked3
  | relT
  | relF
  | retired (ret : Bool)
deriving DecidableEq, Repr

/-- The shared task directory as seen by racing mark_in_progress callers on
one task: whether a completed (or legacy-completed) marker exists, whether
the in-progress marker exists, whether the lock marker exists, and the
program counter of every caller. -/
structure Sys where
  lock : Bool
  inprog : Bool
  compl : Bool
  pcs : Nat → PC

/-- Replace caller i's program counter. -/
def Sys.setPC (s : Sys) (i : Nat) (p : PC) : Sys :=
  { s with pcs := Function.update s.pcs i p }

/-- One atomic step of caller i.  Existence checks and single-file renames
are atomic; os.open with O_CREAT|O_EXCL is the atomic lock acquisition
(state.py 99).  lock_timeout also covers the catch-all except of
acquire_lock; write_fail covers a raise from the metadata write or rename,
after which the finally block still releases the lock — for the purpose of
counting true returns it behaves like the false-returning exit. -/
inductive Step : Sys → Sys → Prop where
  | precheck_hit (s : Sys) (i : Nat) :
      s.pcs i = PC.start → (s.compl || s.inprog) = true →
      Step s (s.setPC i (PC.retired false))
  | precheck_miss (s : Sys) (i : Nat) :
      s.pcs i = PC.start → (s.compl || s.inprog) = false →
      Step s (s.setPC i PC.acquiring)
  | lock_timeout (s : Sys) (i : Nat) :
      s.pcs i = PC.acquiring →
      Step s (s.setPC i (PC.retired false))
  | lock_win (s : Sys) (i : Nat) :
      s.pcs i = PC.acquiring → s.lock = false →
      Step s (Sys.mk true s.inprog s.compl (Function.update s.pcs i PC.locked2))
  | recheck_hit (s : Sys) (i : Nat) :
      s.pcs i = PC.locked2 → (s.compl || s.inprog) = true →
      Step s (s.setPC i PC.relF)
  | recheck_miss (s : Sys) (i : Nat) :
      s.pcs i = PC.locked2 → (s.compl || s.inprog) = false →
      Step s (s.setPC i PC.locked3)
  | write_rename (s : Sys) (i : Nat) :
      s.pcs i = PC.locked3 →
      Step s (Sys.mk s.lock true s.compl (Function.update s.pcs i PC.relT))
  | write_fail (s : Sys) (i : Nat) :
      s.pcs i = PC.locked3 →
      Step s (s.setPC i PC.relF)
  | release_true (s : Sys) (i : Nat) :
      s.pcs i = PC.relT →
      Step s (Sys.mk false s.inprog s.compl (Function.update s.pcs i (PC.retired true)))
  | release_false (s : Sys) (i : Nat) :
      s.pcs i = PC.relF →
      Step s (Sys.mk false s.inprog s.compl (Function.update s.pcs i (PC.retired false)))

/-- Initial state of a race: no lock held, every caller about to enter
mark_in_progress; the completed and in-progress markers may or may not
already exist. -/
def raceInit (c0 p0 : Bool) : Sys :=
  { lock := false, inprog := p0, compl := c0, pcs := fun _ => PC.start }

/-- States reachable by interleaving the callers' atomic steps. -/
def Reach : Sys → Sys → Prop :=
  Relation.ReflTransGen Step

/-- Caller positions at which the lock is held by that caller. -/
def inLocked (p : PC) : Prop :=
  p = PC.locked2 ∨ p = PC.locked3 ∨ p = PC.relT ∨ p = PC.relF

/-- Positions at which a caller has created the marker and will return (or
has returned) true. -/
def winnerPC (p : PC) : Prop :=
  p = PC.relT ∨ p = PC.retired true

/-- Caller i has created the marker and will return (or has returned) true. -/
def winner (s : Sys) (i : Nat) : Prop :=
  winnerPC (s.pcs i)

/-- The inductive invariant of the race: the lock section is exclusive, a
caller that passed the double-check still sees no in-progress marker, and
true-returners are unique and have left the marker in place. -/
structure RaceInv (s : Sys) : Prop where
  locked_lock : ∀ i, inLocked (s.pcs i) → s.lock = true
  locked_uniq : ∀ i j, inLocked (s.pcs i) → inLocked (s.pcs j) → i = j
  locked3_clear : ∀ i, s.pcs i = PC.locked3 → s.inprog = false
  winner_inprog : ∀ i, winner s i → s.inprog = true
  winner_uniq : ∀ i j, winner s i → winner s j → i = j

/-
Concrete instances used by the witness and counterexample theorems.
-/

/-- A task with no markers at all: the pending state. -/
def fs_pending : FS :=
  { in_progress := none, completed := none, legacy_completed := none,
    failed := none, temp_log := none, lock := false }

/-- Metadata with a null pid, as written by the standalone runner before the
subprocess spawn. -/
def m_pid_null : TaskMetadata :=
  { file := "task.md", engine := "codex", model := "o4-mini",
    started_at := "2025-01-01T00:00:00", pid := none,
    worker_id := some "w1", attempt := 1 }

/-- Metadata recorded by some other worker. -/
def meta_other : TaskMetadata :=
  { file := "task.md", engine := "codex", model := "o4-mini",
    started_at := "2025-01-01T00:00:00", pid := some 42,
    worker_id := some "other", attempt := 1 }

/-- A task whose in-progress marker is owned by a different worker. -/
def fs_foreign : FS :=
  { fs_pending with in_progress := some ⟨MarkerContent.valid meta_other, 1⟩ }

/-- A task whose completed marker exists. -/
def fs_done : FS :=
  { fs_pending with completed := some "captured output" }

/-- A task whose in-progress marker holds unparseable bytes. -/
def fs_invalid : FS :=
  { fs_pending with in_progress := some ⟨MarkerContent.invalid "not json", 1⟩ }

/-- A task with an in-progress marker only. -/
def fs_inprog : FS :=
  { fs_pending with
    in_progress := some ⟨MarkerContent.valid meta_other, 1⟩
    temp_log := some "attempt output" }

/-- Error injection where only in_progress.unlink fails. -/
def e_unlink : FSErrors :=
  { noErrors with unlink_in_progress := true }

/-- The state mark_completed leaves behind when the rename succeeds but the
in_progress unlink raises: the completed marker already holds the attempt
output while the in-progress marker is still present and the temp log is
gone.  Reachable from fs_inprog by mark_completed with e_unlink. -/
def fs_both : FS :=
  { fs_pending with
    in_progress := some ⟨MarkerContent.valid meta_other, 1⟩
    completed := some "attempt output" }

/-- A worker identity for concrete runs. -/
def worker0 : Worker :=
  { worker_id := "w0", pid := 1234 }

/-- Configuration with two retries (three attempts). -/
def cfg_r2 : WorkerConfig :=
  { retries := 2 }

/-- Dry-run configuration. -/
def cfg_dry : WorkerConfig :=
  { mode := ExecutionMode.dry_run }

/-- A process runner that exits 1 on the first two attempts and 0 on the
third. -/
def runner_fail_fail_ok : Nat → AttemptOutcome :=
  fun k => if k ≤ 2 then { rc := 1, log := "failure output" }
           else { rc := 0, log := "success output" }

/-- A process runner that always exits 1. -/
def runner_fail : Nat → AttemptOutcome :=
  fun _ => { rc := 1, log := "failure output" }

/-- Intermediate states of a concrete single-caller run of the claiming
race, used to exhibit a reachable state with a true-returning caller. -/
def race0 : Sys := raceInit false false

def race1 : Sys := race0.setPC 0 PC.acquiring

def race2 : Sys := Sys.mk true race1.inprog race1.compl (Function.update race1.pcs 0 PC.locked2)

def race3 : Sys := race2.setPC 0 PC.locked3

def race4 : Sys := Sys.mk race3.lock true race3.compl (Function.update race3.pcs 0 PC.relT)

def race5 : Sys := Sys.mk false race4.inprog race4.compl (Function.update race4.pcs 0 (PC.retired true))

theorem raceInv_init (c0 p0 : Bool) : RaceInv (raceInit c0 p0) := by
  constructor
  · intro i h
    rcases h with h | h | h | h <;> simp [raceInit] at h
  · intro i j hi _
    rcases hi with h | h | h | h <;> simp [raceInit] at h
  · intro i h
    simp [raceInit] at h
  · intro i h
    rcases h with h | h <;> simp [raceInit] at h
  · intro i j hi _
    rcases hi with h | h <;> simp [raceInit] at h

theorem setPC_pcs (s : Sys) (i : Nat) (p : PC) (j : Nat) :
    (s.setPC i p).pcs j = if j = i then p else s.pcs j := by
  simp [Sys.setPC, Function.update]

theorem setPC_lock (s : Sys) (i : Nat) (p : PC) : (s.setPC i p).lock = s.lock := rfl

theorem setPC_inprog (s : Sys) (i : Nat) (p : PC) : (s.setPC i p).inprog = s.inprog := rfl

theorem mk_pcs (a b c : Bool) (f : Nat → PC) : (Sys.mk a b c f).pcs = f := rfl

theorem mk_lock (a b c : Bool) (f : Nat → PC) : (Sys.mk a b c f).lock = a := rfl

theorem mk_inprog (a b c : Bool) (f : Nat → PC) : (Sys.mk a b c f).inprog = b := rfl

/-- A step outside the lock region (pre-check, polling, timeout) preserves
the invariant. -/
theorem raceInv_stepA {s : Sys} (inv : RaceInv s) (i : Nat) (p : PC)
    (hpL : ¬ inLocked p) (hpW : ¬ winnerPC p) :
    RaceInv (s.setPC i p) := by
  constructor
  · intro j hj
    rw [setPC_lock]
    rw [setPC_pcs] at hj
    by_cases hji : j = i
    · rw [if_pos hji] at hj; exact absurd hj hpL
    · rw [if_neg hji] at hj; exact inv.locked_lock j hj
  · intro j k hj hk
    rw [setPC_pcs] at hj hk
    by_cases hji : j = i
    · rw [if_pos hji] at hj; exact absurd hj hpL
    · by_cases hki : k = i
      · rw [if_pos hki] at hk; exact absurd hk hpL
      · rw [if_neg hji] at hj; rw [if_neg hki] at hk
        exact inv.locked_uniq j k hj hk
  · intro j hj
    rw [setPC_pcs] at hj
    rw [setPC_inprog]
    by_cases hji : j = i
    · rw [if_pos hji] at hj
      exact absurd (by rw [hj]; exact Or.inr (Or.inl rfl)) hpL
    · rw [if_neg hji] at hj
      exact inv.locked3_clear j hj
  · intro j hj
    unfold winner at hj
    rw [setPC_pcs] at hj
    rw [setPC_inprog]
    by_cases hji : j = i
    · rw [if_pos hji] at hj; exact absurd hj hpW
    · rw [if_neg hji] at hj; exact inv.winner_inprog j hj
  · intro j k hj hk
    unfold winner at hj hk
    rw [setPC_pcs] at hj hk
    by_cases hji : j = i
    · rw [if_pos hji] at hj; exact absurd hj hpW
    · by_cases hki : k = i
      · rw [if_pos hki] at hk; exact absurd hk hpW
      · rw [if_neg hji] at hj; rw [if_neg hki] at hk
        exact inv.winner_uniq j k hj hk

/-- A step that stays inside the lock region without creating the marker
(double-check, write failure) preserves the invariant. -/
theorem raceInv_stepB {s : Sys} (inv : RaceInv s) (i : Nat) (p : PC)
    (hoL : inLocked (s.pcs i)) (hpL : inLocked p)
    (hpW : ¬ winnerPC p)
    (h3 : p = PC.locked3 → s.inprog = false) :
    RaceInv (s.setPC i p) := by
  have key : ∀ j, inLocked ((s.setPC i p).pcs j) → inLocked (s.pcs j) := by
    intro j hj
    rw [setPC_pcs] at hj
    by_cases hji : j = i
    · rw [hji]; exact hoL
    · rw [if_neg hji] at hj; exact hj
  constructor
  · intro j hj
    rw [setPC_lock]
    exact inv.locked_lock j (key j hj)
  · intro j k hj hk
    exact inv.locked_uniq j k (key j hj) (key k hk)
  · intro j hj
    rw [setPC_pcs] at hj
    rw [setPC_inprog]
    by_cases hji : j = i
    · rw [if_pos hji] at hj
      exact h3 hj
    · rw [if_neg hji] at hj
      exact inv.locked3_clear j hj
  · intro j hj
    unfold winner at hj
    rw [setPC_pcs] at hj
    rw [setPC_inprog]
    by_cases hji : j = i
    · rw [if_pos hji] at hj; exact absurd hj hpW
    · rw [if_neg hji] at hj; exact inv.winner_inprog j hj
  · intro j k hj hk
    unfold winner at hj hk
    rw [setPC_pcs] at hj hk
    by_cases hji : j = i
    · rw [if_pos hji] at hj; exact absurd hj hpW
    · by_cases hki : k = i
      · rw [if_pos hki] at hk; exact absurd hk hpW
      · rw [if_neg hji] at hj; rw [if_neg hki] at hk
        exact inv.winner_uniq j k hj hk

/-- Every atomic step preserves the race invariant. -/
theorem raceInv_step {s t : Sys} (inv : RaceInv s) (h : Step s t) : RaceInv t := by
  cases h with
  | precheck_hit i hpc hg =>
    exact raceInv_stepA inv i _ (by simp [inLocked]) (by simp [winnerPC])
  | precheck_miss i hpc hg =>
    exact raceInv_stepA inv i _ (by simp [inLocked]) (by simp [winnerPC])
  | lock_timeout i hpc =>
    exact raceInv_stepA inv i _ (by simp [inLocked]) (by simp [winnerPC])
  | recheck_hit i hpc hg =>
    exact raceInv_stepB inv i _ (by rw [hpc]; simp [inLocked]) (by simp [inLocked])
      (by simp [winnerPC]) (by simp)
  | recheck_miss i hpc hg =>
    refine raceInv_stepB inv i _ (by rw [hpc]; simp [inLocked]) (by simp [inLocked])
      (by simp [winnerPC]) ?_
    intro _
    simp only [Bool.or_eq_false_iff] at hg
    exact hg.2
  | write_fail i hpc =>
    exact raceInv_stepB inv i _ (by rw [hpc]; simp [inLocked]) (by simp [inLocked])
      (by simp [winnerPC]) (by simp)
  | lock_win i hpc hg =>
    have get_i : ∀ l,
        inLocked ((Sys.mk true s.inprog s.compl (Function.update s.pcs i PC.locked2)).pcs l) →
        l = i := by
      intro l hl
      rw [mk_pcs, Function.update_apply] at hl
      by_cases hli : l = i
      · exact hli
      · rw [if_neg hli] at hl
        exact absurd (inv.locked_lock l hl) (by rw [hg]; exact Bool.false_ne_true)
    constructor
    · intro j _; rfl
    · intro j k hj hk
      rw [get_i j hj, get_i k hk]
    · intro j hj
      rw [mk_pcs, Function.update_apply] at hj
      by_cases hji : j = i
      · rw [if_pos hji] at hj; exact absurd hj (by simp)
      · rw [if_neg hji] at hj
        exact absurd (inv.locked_lock j (by rw [hj]; exact Or.inr (Or.inl rfl)))
          (by rw [hg]; exact Bool.false_ne_true)
    · intro j hj
      unfold winner at hj
      rw [mk_pcs, Function.update_apply] at hj
      rw [mk_inprog]
      by_cases hji : j = i
      · rw [if_pos hji] at hj; exact absurd hj (by simp [winnerPC])
      · rw [if_neg hji] at hj; exact inv.winner_inprog j hj
    · intro j k hj hk
      unfold winner at hj hk
      rw [mk_pcs, Function.update_apply] at hj hk
      by_cases hji : j = i
      · rw [if_pos hji] at hj; exact absurd hj (by simp [winnerPC])
      · by_cases hki : k = i
        · rw [if_pos hki] at hk; exact absurd hk (by simp [winnerPC])
        · rw [if_neg hji] at hj; rw [if_neg hki] at hk
          exact inv.winner_uniq j k hj hk
  | write_rename i hpc =>
    have hclear : s.inprog = false := inv.locked3_clear i hpc
    constructor
    · intro j hj
      rw [mk_pcs, Function.update_apply] at hj
      rw [mk_lock]
      by_cases hji : j = i
      · exact inv.locked_lock i (by rw [hpc]; exact Or.inr (Or.inl rfl))
      · rw [if_neg hji] at hj; exact inv.locked_lock j hj
    · intro j k hj hk
      have key : ∀ l,
          inLocked ((Sys.mk s.lock true s.compl (Function.update s.pcs i PC.relT)).pcs l) →
          inLocked (s.pcs l) := by
        intro l hl
        rw [mk_pcs, Function.update_apply] at hl
        by_cases hli : l = i
        · rw [hli, hpc]; exact Or.inr (Or.inl rfl)
        · rw [if_neg hli] at hl; exact hl
      exact inv.locked_uniq j k (key j hj) (key k hk)
    · intro j hj
      rw [mk_pcs, Function.update_apply] at hj
      by_cases hji : j = i
      · rw [if_pos hji] at hj; exact absurd hj (by simp)
      · rw [if_neg hji] at hj
        exact absurd (inv.locked_uniq j i
          (by rw [hj]; exact Or.inr (Or.inl rfl))
          (by rw [hpc]; exact Or.inr (Or.inl rfl))) hji
    · intro j _; rfl
    · intro j k hj hk
      have get_i : ∀ l,
          winner (Sys.mk s.lock true s.compl (Function.update s.pcs i PC.relT)) l → l = i := by
        intro l hl
        unfold winner at hl
        rw [mk_pcs, Function.update_apply] at hl
        by_cases hli : l = i
        · exact hli
        · rw [if_neg hli] at hl
          exact absurd (inv.winner_inprog l hl)
            (by rw [hclear]; exact Bool.false_ne_true)
      rw [get_i j hj, get_i k hk]
  | release_true i hpc =>
    have noLocked : ∀ l,
        ¬ inLocked ((Sys.mk false s.inprog s.compl
          (Function.update s.pcs i (PC.retired true))).pcs l) := by
      intro l hl
      rw [mk_pcs, Function.update_apply] at hl
      by_cases hli : l = i
      · rw [if_pos hli] at hl
        rcases hl with h | h | h | h <;> simp at h
      · rw [if_neg hli] at hl
        exact hli (inv.locked_uniq l i hl (by rw [hpc]; exact Or.inr (Or.inr (Or.inl rfl))))
    constructor
    · intro j hj; exact absurd hj (noLocked j)
    · intro j k hj _; exact absurd hj (noLocked j)
    · intro j hj
      exact absurd (show inLocked _ by rw [hj]; exact Or.inr (Or.inl rfl)) (noLocked j)
    · intro j hj
      unfold winner at hj
      rw [mk_pcs, Function.update_apply] at hj
      rw [mk_inprog]
      by_cases hji : j = i
      · exact inv.winner_inprog i (Or.inl hpc)
      · rw [if_neg hji] at hj; exact inv.winner_inprog j hj
    · intro j k hj hk
      have get_i : ∀ l,
          winner (Sys.mk false s.inprog s.compl
            (Function.update s.pcs i (PC.retired true))) l → l = i := by
        intro l hl
        unfold winner at hl
        rw [mk_pcs, Function.update_apply] at hl
        by_cases hli : l = i
        · exact hli
        · rw [if_neg hli] at hl
          exact inv.winner_uniq l i hl (Or.inl hpc)
      rw [get_i j hj, get_i k hk]
  | release_false i hpc =>
    have noLocked : ∀ l,
        ¬ inLocked ((Sys.mk false s.inprog s.compl
          (Function.update s.pcs i (PC.retired false))).pcs l) := by
      intro l hl
      rw [mk_pcs, Function.update_apply] at hl
      by_cases hli : l = i
      · rw [if_pos hli] at hl
        rcases hl with h | h | h | h <;> simp at h
      · rw [if_neg hli] at hl
        exact hli (inv.locked_uniq l i hl (by rw [hpc]; exact Or.inr (Or.inr (Or.inr rfl))))
    constructor
    · intro j hj; exact absurd hj (noLocked j)
    · intro j k hj _; exact absurd hj (noLocked j)
    · intro j hj
      exact absurd (show inLocked _ by rw [hj]; exact Or.inr (Or.inl rfl)) (noLocked j)
    · intro j hj
      unfold winner at hj
      rw [mk_pcs, Function.update_apply] at hj
      rw [mk_inprog]
      by_cases hji : j = i
      · rw [if_pos hji] at hj
        rcases hj with h | h <;> simp at h
      · rw [if_neg hji] at hj; exact inv.winner_inprog j hj
    · intro j k hj hk
      have key : ∀ l,
          winner (Sys.mk false s.inprog s.compl
            (Function.update s.pcs i (PC.retired false))) l → winner s l := by
        intro l hl
        unfold winner at hl ⊢
        rw [mk_pcs, Function.update_apply] at hl
        by_cases hli : l = i
        · rw [if_pos hli] at hl
          rcases hl with h | h <;> simp at h
        · rw [if_neg hli] at hl; exact hl
      exact inv.winner_uniq j k (key j hj) (key k hk)


theorem raceInv_reach {s t : Sys} (h : Reach s t) (h0 : RaceInv s) : RaceInv t := by
  induction h with
  | refl => exact h0
  | tail _ hstep ih => exact raceInv_step ih hstep

/-
Claim theorems.
-/

/-- Reaching race5 from the empty-directory initial race state by one caller
executing mark_in_progress to a successful return. -/
theorem race5_reachable : Reach race0 race5 := by
  have h1 : Step race0 race1 := Step.precheck_miss race0 0 rfl rfl
  have h2 : Step race1 race2 := Step.lock_win race1 0 rfl rfl
  have h3 : Step race2 race3 := Step.recheck_miss race2 0 rfl rfl
  have h4 : Step race3 race4 := Step.write_rename race3 0 rfl
  have h5 : Step race4 race5 := Step.release_true race4 0 rfl
  exact Relation.ReflTransGen.tail
    (Relation.ReflTransGen.tail
      (Relation.ReflTransGen.tail
        (Relation.ReflTransGen.tail
          (Relation.ReflTransGen.tail Relation.ReflTransGen.refl h1) h2) h3) h4) h5

theorem race5_pc : race5.pcs 0 = PC.retired true := rfl

/-- C1: for every task, among any set of concurrent callers racing to claim
it via mark_in_progress, at most one caller returns true — in every state
reachable by interleaving the callers' atomic steps, any two callers that
have returned true are the same caller, whatever markers existed when the
race began. -/
theorem C1_mark_in_progress_mutual_exclusion (c0 p0 : Bool) (s : Sys)
    (h : Reach (raceInit c0 p0) s) (i j : Nat)
    (hi : s.pcs i = PC.retired true) (hj : s.pcs j = PC.retired true) : i = j :=
  (raceInv_reach h (raceInv_init c0 p0)).winner_uniq i j (Or.inr hi) (Or.inr hj)

/-- Witness for C1: a concrete race in which caller 0 has returned true in a
reachable state, so the theorem's hypotheses are satisfiable. -/
theorem C1_mark_in_progress_mutual_exclusion_witness : (0 : Nat) = 0 :=
  C1_mark_in_progress_mutual_exclusion false false race5 race5_reachable 0 0
    race5_pc race5_pc


/-- C2: with the lock marker absent and a single caller, mark_in_progress
returns false exactly when a completed (including legacy) or in-progress
marker already exists, creates the in-progress marker and returns true when
neither exists, and in either case leaves the lock marker absent when the
call returns. -/
theorem C2_mark_in_progress_single_caller (fs : FS) (m : TaskMetadata) (now : ℚ)
    (hlock : fs.lock = false) :
    ((is_completed fs || is_in_progress fs) = true →
      mark_in_progress fs m now noErrors = (fs, Except.ok false)) ∧
    ((is_completed fs || is_in_progress fs) = false →
      mark_in_progress fs m now noErrors =
        ({ fs with in_progress := some ⟨MarkerContent.valid m, now⟩ },
         Except.ok true)) ∧
    (mark_in_progress fs m now noErrors).1.lock = false := by
  obtain ⟨ip, c, lc, fl, tl, lk⟩ := fs
  simp only at hlock
  subst hlock
  refine ⟨?_, ?_, ?_⟩
  · intro h
    simp [mark_in_progress, h]
  · intro h
    simp only [is_completed, is_in_progress, Bool.or_eq_false_iff] at h
    simp [mark_in_progress, is_completed, is_in_progress, acquire_lock,
      release_lock, noErrors, h]
  · by_cases h : (is_completed ⟨ip, c, lc, fl, tl, false⟩ ||
        is_in_progress ⟨ip, c, lc, fl, tl, false⟩) = true
    · simp [mark_in_progress, h]
    · rw [Bool.not_eq_true] at h
      simp only [is_completed, is_in_progress, Bool.or_eq_false_iff] at h
      simp [mark_in_progress, is_completed, is_in_progress, acquire_lock,
        release_lock, noErrors, h]

/-- Witness for C2: both outcomes at concrete marker states, and the lock is
absent afterwards. -/
theorem C2_mark_in_progress_single_caller_witness :
    (mark_in_progress fs_done m_pid_null 0 noErrors = (fs_done, Except.ok false)) ∧
    (mark_in_progress fs_pending m_pid_null 0 noErrors =
      ({ fs_pending with in_progress := some ⟨MarkerContent.valid m_pid_null, 0⟩ },
       Except.ok true)) ∧
    (mark_in_progress fs_pending m_pid_null 0 noErrors).1.lock = false :=
  ⟨(C2_mark_in_progress_single_caller fs_done m_pid_null 0 rfl).1 rfl,
   (C2_mark_in_progress_single_caller fs_pending m_pid_null 0 rfl).2.1 rfl,
   (C2_mark_in_progress_single_caller fs_pending m_pid_null 0 rfl).2.2⟩

/-- Counterexample for C3: when a completed marker already holds content —
a state mark_completed itself leaves behind when its rename succeeds but
the in_progress unlink raises — a later mark_completed with no temp log
returns true, yet the completed marker is not empty: Path.touch preserved
the existing content, so the claim's empty-marker clause is false. -/
theorem C3_touch_preserves_counterexample :
    (mark_completed fs_inprog e_unlink).1 = fs_both ∧
    (mark_completed fs_inprog e_unlink).2 = false ∧
    (mark_completed fs_both noErrors).2 = true ∧
    (mark_completed fs_both noErrors).1.completed = some "attempt output" ∧
    (mark_completed fs_both noErrors).1.completed ≠ some "" := by
  refine ⟨rfl, rfl, rfl, rfl, ?_⟩
  decide

/-- C3 (amended): mark_completed returns false and changes nothing when the
in-progress marker is absent; when it is present and no filesystem call
fails, it moves the temp log onto the completed marker path or, with no
temp log, touches the completed marker path — creating an empty marker only
when none exists and preserving the content of a pre-existing one — removes
the in-progress and failed markers, returns true, and an immediate second
call returns false. -/
theorem C3_mark_completed (fs : FS) (e : FSErrors) :
    (is_in_progress fs = false → mark_completed fs e = (fs, false)) ∧
    (is_in_progress fs = true →
      (mark_completed fs noErrors).2 = true ∧
      (mark_completed fs noErrors).1.completed =
        some (match fs.temp_log with
              | some log => log
              | none => fs.completed.getD "") ∧
      (mark_completed fs noErrors).1.temp_log = none ∧
      (mark_completed fs noErrors).1.in_progress = none ∧
      (mark_completed fs noErrors).1.failed = none ∧
      mark_completed (mark_completed fs noErrors).1 noErrors =
        ((mark_completed fs noErrors).1, false)) := by
  constructor
  · intro h
    simp [mark_completed, h]
  · intro h
    obtain ⟨ip, c, lc, fl, tl, lk⟩ := fs
    simp only [is_in_progress] at h
    rcases ip with _ | marker
    · simp at h
    · rcases tl with _ | log <;>
        simp [mark_completed, mark_completed_cleanup, noErrors, is_in_progress]

/-- Witness for C3: both branches at concrete marker states, the successful
one with a temp log and a fresh (absent) completed marker. -/
theorem C3_mark_completed_witness :
    (mark_completed fs_pending noErrors = (fs_pending, false)) ∧
    ((mark_completed fs_inprog noErrors).2 = true ∧
      (mark_completed fs_inprog noErrors).1.completed =
        some (match fs_inprog.temp_log with
              | some log => log
              | none => fs_inprog.completed.getD "") ∧
      (mark_completed fs_inprog noErrors).1.temp_log = none ∧
      (mark_completed fs_inprog noErrors).1.in_progress = none ∧
      (mark_completed fs_inprog noErrors).1.failed = none ∧
      mark_completed (mark_completed fs_inprog noErrors).1 noErrors =
        ((mark_completed fs_inprog noErrors).1, false)) :=
  ⟨(C3_mark_completed fs_pending noErrors).1 rfl,
   (C3_mark_completed fs_inprog noErrors).2 rfl⟩


/-- C8: whenever mark_in_progress succeeds, reading the marker back through
get_metadata returns exactly the metadata that was written — every field,
including a null pid. -/
theorem C8_metadata_round_trip (fs : FS) (m : TaskMetadata) (now : ℚ)
    (h : (mark_in_progress fs m now noErrors).2 = Except.ok true) :
    get_metadata (mark_in_progress fs m now noErrors).1 noErrors = some m := by
  obtain ⟨ip, c, lc, fl, tl, lk⟩ := fs
  by_cases h1 : (is_completed ⟨ip, c, lc, fl, tl, lk⟩ ||
      is_in_progress ⟨ip, c, lc, fl, tl, lk⟩) = true
  · simp [mark_in_progress, h1] at h
  · rw [Bool.not_eq_true] at h1
    simp only [is_completed, is_in_progress, Bool.or_eq_false_iff] at h1
    rcases lk with _ | _
    · simp [mark_in_progress, is_completed, is_in_progress, acquire_lock,
        release_lock, noErrors, h1, get_metadata]
    · simp [mark_in_progress, is_completed, is_in_progress, acquire_lock,
        release_lock, noErrors, h1] at h

/-- Witness for C8: a successful claim with a null pid reads back intact. -/
theorem C8_metadata_round_trip_witness :
    get_metadata (mark_in_progress fs_pending m_pid_null 0 noErrors).1 noErrors =
      some m_pid_null :=
  C8_metadata_round_trip fs_pending m_pid_null 0 rfl

/-- C10: when the in-progress marker exists but its content is not
parseable JSON, cleanup_stale returns false and leaves every marker in
place, for every age threshold, clock, liveness oracle and error
injection. -/
theorem C10_cleanup_stale_unparseable (fs : FS) (raw : String) (mt : ℚ)
    (max_age now : ℚ) (osAlive : Int → Bool) (e : FSErrors)
    (h : fs.in_progress = some ⟨MarkerContent.invalid raw, mt⟩) :
    cleanup_stale fs max_age now osAlive e = (fs, false) := by
  simp only [cleanup_stale, h]
  split_ifs <;> rfl

/-- Witness for C10: an unparseable marker older than a zero threshold with
a live recorded process is left alone. -/
theorem C10_cleanup_stale_unparseable_witness :
    cleanup_stale fs_invalid 0 99 (fun _ => true) noErrors = (fs_invalid, false) :=
  C10_cleanup_stale_unparseable fs_invalid "not json" 1 0 99 (fun _ => true)
    noErrors rfl

/-- C5: with an in-progress marker recording pid p, cleanup_stale with a
zero age threshold deletes the marker and returns true when the process is
dead (and the clock is not behind the marker's mtime and no filesystem call
fails), and for every age threshold and error injection it returns false
and keeps the marker while the process is alive. -/
theorem C5_cleanup_stale_liveness (fs : FS) (m : TaskMetadata) (mt now : ℚ)
    (osAlive : Int → Bool) (p : Int)
    (h : fs.in_progress = some ⟨MarkerContent.valid m, mt⟩)
    (hpid : m.pid = some p) :
    (mt ≤ now → is_process_alive p osAlive = false →
      cleanup_stale fs 0 now osAlive noErrors = ({ fs with in_progress := none }, true)) ∧
    (∀ max_age : ℚ, ∀ e : FSErrors, is_process_alive p osAlive = true →
      cleanup_stale fs max_age now osAlive e = (fs, false)) := by
  constructor
  · intro hage halive
    have hnl : ¬ (now - mt < 0) := by
      rw [not_lt, sub_nonneg]
      exact hage
    simp [cleanup_stale, h, hpid, noErrors, hnl, halive]
  · intro max_age e halive
    have hp : (p != 0) = true := by
      rw [bne_iff_ne]
      intro hp0
      rw [hp0] at halive
      simp [is_process_alive] at halive
    have hcond : (pidTruthy m.pid && is_process_alive (m.pid.getD 0) osAlive) = true := by
      rw [hpid]
      simp only [Option.getD_some, pidTruthy]
      rw [halive, hp]
      rfl
    simp only [cleanup_stale, h, hcond]
    split_ifs <;> simp_all

/-- Witness for C5: a dead recorded process is reclaimed at threshold 0; a
live one is kept at threshold 3600 even though the marker is old. -/
theorem C5_cleanup_stale_liveness_witness :
    (cleanup_stale fs_foreign 0 99 (fun _ => false) noErrors =
      ({ fs_foreign with in_progress := none }, true)) ∧
    (cleanup_stale fs_foreign 3600 99 (fun _ => true) noErrors =
      (fs_foreign, false)) :=
  ⟨(C5_cleanup_stale_liveness fs_foreign meta_other 1 99 (fun _ => false) 42
      rfl rfl).1 (by norm_num) (by decide),
   (C5_cleanup_stale_liveness fs_foreign meta_other 1 99 (fun _ => true) 42
      rfl rfl).2 3600 noErrors (by decide)⟩


/-- C6: with retries = 2 and a runner that exits 1, 1, 0, process_file does
drive the task to the completed state — but the returned ExecutionResult
carries attempts = 1, not 3: the attempts field of ExecutionResult is never
assigned anywhere (only the in-memory metadata.attempt is updated, and that
is not written back to any marker or result), so the claimed attempt count
of 3 is not recorded. -/
theorem C6_retry_attempts_eval :
    get_state (process_file worker0 cfg_r2 "task.md" fs_pending
      runner_fail_fail_ok 0 "t0").1 = "completed" ∧
    (process_file worker0 cfg_r2 "task.md" fs_pending
      runner_fail_fail_ok 0 "t0").2.2.attempts = 1 ∧
    (process_file worker0 cfg_r2 "task.md" fs_pending
      runner_fail_fail_ok 0 "t0").2.2.success = true ∧
    (process_file worker0 cfg_r2 "task.md" fs_pending
      runner_fail_fail_ok 0 "t0").2.2.return_code = 0 ∧
    (process_file worker0 cfg_r2 "task.md" fs_pending
      runner_fail_fail_ok 0 "t0").2.1.stats.completed = 1 := by
  refine ⟨?_, ?_, ?_, ?_, ?_⟩ <;> rfl

/-- C7: a task that is already completed, or whose in-progress marker
records a different worker identity, is returned from process_file without
claiming or executing it — the marker state is unchanged and the outcome is
counted as a skip, leaving the failure counter untouched. -/
theorem C7_skip_completed_or_foreign (w : Worker) (cfg : WorkerConfig)
    (file : String) (fs : FS) (runner : Nat → AttemptOutcome) (now : ℚ)
    (st : String) (meta : TaskMetadata) (mt : ℚ) :
    (is_completed fs = true →
      process_file w cfg file fs runner now st =
        (fs, bump_skipped w,
         { file := file, success := true, return_code := 0,
           error_msg := some "Already completed" })) ∧
    (is_completed fs = false →
      fs.in_progress = some ⟨MarkerContent.valid meta, mt⟩ →
      meta.worker_id ≠ some w.worker_id →
      process_file w cfg file fs runner now st =
        (fs, bump_skipped w,
         { file := file, success := false, return_code := 1,
           error_msg := some "In progress by another worker" })) ∧
    (bump_skipped w).stats.skipped = w.stats.skipped + 1 ∧
    (bump_skipped w).stats.failed = w.stats.failed ∧
    (bump_skipped w).stats.started = w.stats.started := by
  refine ⟨?_, ?_, rfl, rfl, rfl⟩
  · intro h
    simp [process_file, h]
  · intro hdone hip hw
    have hbne : (meta.worker_id != some w.worker_id) = true := by
      rw [bne_iff_ne]
      exact hw
    simp [process_file, hdone, is_in_progress, hip, get_metadata, noErrors, hbne]

/-- Witness for C7: both skip paths at concrete states with a foreign
owner. -/
theorem C7_skip_completed_or_foreign_witness :
    (process_file worker0 cfg_r2 "task.md" fs_done runner_fail 0 "t0" =
      (fs_done, bump_skipped worker0,
       { file := "task.md", success := true, return_code := 0,
         error_msg := some "Already completed" })) ∧
    (process_file worker0 cfg_r2 "task.md" fs_foreign runner_fail 0 "t0" =
      (fs_foreign, bump_skipped worker0,
       { file := "task.md", success := false, return_code := 1,
         error_msg := some "In progress by another worker" })) :=
  ⟨(C7_skip_completed_or_foreign worker0 cfg_r2 "task.md" fs_done runner_fail
      0 "t0" meta_other 1).1 rfl,
   (C7_skip_completed_or_foreign worker0 cfg_r2 "task.md" fs_foreign
      runner_fail 0 "t0" meta_other 1).2.1 rfl rfl (by decide)⟩


/-- C9: on a pending task (no markers, no leftover temp log, no lock),
process_file in dry-run mode still mutates the filesystem: the claim step
creates the real in-progress marker; the dry-run attempt reports success
without producing a temp log, so finalization creates an empty completed
marker — the on-disk state ends up completed and a subsequent run skips the
task. -/
theorem C9_dry_run_completes (w w2 : Worker) (cfg : WorkerConfig)
    (file : String) (runner runner2 : Nat → AttemptOutcome) (now now2 : ℚ)
    (st st2 : String) (fs : FS)
    (hmode : cfg.mode = ExecutionMode.dry_run)
    (hshut : w.shutdown = false)
    (hip : fs.in_progress = none) (hc : fs.completed = none)
    (hlc : fs.legacy_completed = none) (hf : fs.failed = none)
    (htl : fs.temp_log = none) (hlk : fs.lock = false) :
    (mark_in_progress fs
        { file := file, engine := "codex", model := cfg.model,
          started_at := st, pid := some w.pid,
          worker_id := some w.worker_id, attempt := 1 } now noErrors =
      ({ fs with in_progress := some ⟨MarkerContent.valid
          { file := file, engine := "codex", model := cfg.model,
            started_at := st, pid := some w.pid,
            worker_id := some w.worker_id, attempt := 1 }, now⟩ },
       Except.ok true)) ∧
    (process_file w cfg file fs runner now st).1.completed = some "" ∧
    (process_file w cfg file fs runner now st).1.in_progress = none ∧
    get_state (process_file w cfg file fs runner now st).1 = "completed" ∧
    (process_file w cfg file fs runner now st).2.2.success = true ∧
    (process_file w2 cfg file (process_file w cfg file fs runner now st).1
        runner2 now2 st2 =
      ((process_file w cfg file fs runner now st).1, bump_skipped w2,
       { file := file, success := true, return_code := 0,
         error_msg := some "Already completed" })) := by
  obtain ⟨ip, c, lc, fl, tl, lk⟩ := fs
  simp only at hip hc hlc hf htl hlk
  subst hip hc hlc hf htl hlk
  refine ⟨?_, ?_, ?_, ?_, ?_, ?_⟩ <;>
    simp [mark_in_progress, process_file, is_completed, is_in_progress,
      is_failed, acquire_lock, release_lock, noErrors, get_metadata,
      retry_loop, execute_single, hmode, hshut, mark_completed,
      mark_completed_cleanup, bump_started, get_state]

/-- Witness for C9: a concrete dry run on a pending task. -/
theorem C9_dry_run_completes_witness :
    get_state (process_file worker0 cfg_dry "task.md" fs_pending
      runner_fail 0 "t0").1 = "completed" :=
  (C9_dry_run_completes worker0 worker0 cfg_dry "task.md" runner_fail
    runner_fail 0 0 "t0" "t0" fs_pending rfl rfl rfl rfl rfl rfl rfl
    rfl).2.2.2.1


end CodexWorker
